import Mathlib

/-!
Verification development for the AggregatorBackend repository: a shallow
embedding in Lean 4 of the event-ingestion, fan-out and analytics core
(`src/models.py`, `src/mqtt_client.py`, `src/analytics.py`), together with
theorems settling the frozen specification claims.

Modelling conventions:
* Python strings are Lean `String`s; the character-level helpers below model
  `str.startswith`, `str.rsplit("_", 1)`, `str.split("_", 1)` and the
  decimal behaviour of `str.isdigit` and `int(...)`; the digit-class
  characters that `str.isdigit` accepts but `int(...)` rejects are modelled
  through representative superscript digits (`pyIsdigitChar`), which makes
  the uncaught `ValueError` of the call-button branch expressible
  (`extractFloorRun`).  Non-ASCII decimal forms that `int(...)` accepts are
  outside the model; no statement proved below depends on them.
* Timestamps are rational numbers of seconds (a `datetime` is a point on a
  time line; only ordering and subtraction in seconds are used by the code).
* The SQLAlchemy store is a pair of tables held in `DBState`; a storage-layer
  failure is injected through a boolean so that the `try/except` structure of
  the source is reproduced with `Except`.
* Fallible Python code is embedded with `Option`/`Except`; functions that the
  source guarantees total are total Lean functions.
-/

namespace AggregatorBackend

/-! ## Python string primitives (ASCII model) -/

/-- `a.startswith(p)` on lists of characters. -/
def py_startswith : List Char → List Char → Bool
  | [], _ => true
  | _ :: _, [] => false
  | p :: ps, c :: cs => p = c && py_startswith ps cs

/-- `s.rsplit("_", 1)[-1]`: the part of `s` after the last underscore
(the whole string when no underscore occurs). -/
def lastComponent (s : List Char) : List Char :=
  (s.reverse.takeWhile (· ≠ '_')).reverse

/-- `s.split("_", 1)[0]`: the part of `s` before the first underscore
(the whole string when no underscore occurs). -/
def firstComponent (s : List Char) : List Char :=
  s.takeWhile (· ≠ '_')

/-- ASCII whitespace accepted (and stripped) by Python `int(...)`. -/
def isPyWs (c : Char) : Bool :=
  c = ' ' || c = '\t' || c = '\n' || c = '\r' || c = '\x0b' || c = '\x0c'

/-- Strip leading and trailing whitespace, as Python `int(...)` does. -/
def pyStripWs (s : List Char) : List Char :=
  ((s.dropWhile isPyWs).reverse.dropWhile isPyWs).reverse

/-- Value of a non-empty all-decimal-digit character list; `none` otherwise. -/
def digitsVal (s : List Char) : Option Nat :=
  if s ≠ [] ∧ s.all Char.isDigit then
    some (s.foldl (fun a c => 10 * a + (c.toNat - 48)) 0)
  else none

/-- Sign handling of Python `int(...)` after whitespace stripping: an
optional single sign, then decimal digits. -/
def pyIntCore : List Char → Option Int
  | [] => none
  | c :: cs =>
    if c = '-' then (digitsVal cs).map (fun n => -(n : Int))
    else if c = '+' then (digitsVal cs).map (fun n => (n : Int))
    else (digitsVal (c :: cs)).map (fun n => (n : Int))

/-- Python `int(s)`: optional surrounding whitespace, an optional single
sign, then decimal digits; other input raises `ValueError`, modelled as
`none`.  Exact on ASCII input (underscore grouping cannot occur on the
components `rsplit`/`split` on an underscore produce, and the non-ASCII
decimal forms Python also accepts are outside the model). -/
def pyInt (s : List Char) : Option Int :=
  pyIntCore (pyStripWs s)

/-- Python `s.isdigit()` on ASCII input, where the digit class coincides
with the decimal digits: non-empty and all decimal digits.  `pyIsdigitU`
below extends it with the digit-class characters on which `int(...)`
raises. -/
def pyIsdigit (s : List Char) : Bool :=
  !s.isEmpty && s.all Char.isDigit

/-! ## `src/models.py` -/

/-- `EVENT_TYPES` from `src/models.py`: the fixed catalog of recognized
payload strings. -/
def EVENT_TYPES : List String :=
  [ "floor_reached_0"
  , "floor_reached_1"
  , "floor_reached_2"
  , "button_inside_0"
  , "button_inside_1"
  , "button_inside_2"
  , "call_button_0_up"
  , "call_button_1_up"
  , "call_button_1_down"
  , "call_button_2_down"
  , "emergency_stop"
  , "emergency_released"
  , "maxim_connected"
  , "maxim_connection_lost" ]

/-- A row of the `events` table (`class Event` in `src/models.py`):
a foreign key into `event_types`, an optional floor, and a timestamp. -/
structure Event where
  event_type_id : Nat
  floor : Option Int
  timestamp : Rat
  deriving DecidableEq, Repr

/-- The relational store: the `event_types` lookup table (id, name rows)
and the append-only `events` table. -/
structure DBState where
  event_types : List (Nat × String)
  events : List Event
  deriving DecidableEq, Repr

/-- The `event_types` table as seeded by `init_db` in `src/app.py`:
one row per catalog name, ids assigned consecutively from 1. -/
def seededTypes : List (Nat × String) :=
  EVENT_TYPES.enum.map (fun p => (p.1 + 1, p.2))

/-! ## `src/mqtt_client.py`: floor extraction -/

/-- `_extract_floor` from `src/mqtt_client.py` on character lists: three
prefix branches; the first two parse the text after the last underscore with
`int(...)` guarded by `try/except ValueError`, the third parses the first
component after the prefix only when `isdigit` holds. -/
def extractFloorL (event_type : List Char) : Option Int :=
  if py_startswith ("stopped_at_floor_".toList) event_type then
    pyInt (lastComponent event_type)
  else if py_startswith ("cabin_button_".toList) event_type then
    pyInt (lastComponent event_type)
  else if py_startswith ("call_button_".toList) event_type then
    let tail := event_type.drop ("call_button_".toList).length
    let parts0 := firstComponent tail
    if pyIsdigit parts0 then pyInt parts0 else none
  else none

/-- `_extract_floor` on Lean strings. -/
def _extract_floor (event_type : String) : Option Int :=
  extractFloorL event_type.toList

/-! ## `src/mqtt_client.py`: ingestion state

The module-level globals of `mqtt_client.py` (`_latest_messages`,
`_message_id_counter`, `_subscribers`, the per-`Queue` contents, and the
database reachable through the Flask app) are gathered into one state record.
`Queue` objects are identified by the order of their creation
(`nextChan` plays the role of object identity); `queues c` is the list of
messages put into channel `c` so far. -/

/-- The message dict built in `on_mqtt_message`.  The `timestamp` field holds
the `datetime` denoted by the ISO string, `none` standing for a string that
`datetime.fromisoformat` rejects (the string written by `on_mqtt_message`
itself always parses). -/
structure Message where
  id : Nat
  topic : String
  payload : String
  timestamp : Option Rat
  deriving DecidableEq, Repr

/-- `_latest_messages.append(message)` followed by
`del _latest_messages[:-MAX_MESSAGES]` (lines 131-132).  For `cap ≥ 1` the
slice `[:-cap]` is everything but the last `cap` elements, so the deletion
keeps the most recent `cap`; for `cap = 0` the slice `[:-0] = [:0]` is empty
and nothing is deleted. -/
def bufferAppend (cap : Nat) (buf : List Message) (m : Message) : List Message :=
  let b := buf ++ [m]
  if cap = 0 then b else b.drop (b.length - cap)

/-- The process-wide mutable state of `src/mqtt_client.py`, plus the
environment it reads: the configured capacity, whether the storage layer is
currently failing, and whether `register_flask_app` has run. -/
structure IngestState where
  counter : Nat
  buffer : List Message
  subs : List Nat
  queues : Nat → List Message
  nextChan : Nat
  db : DBState
  maxMessages : Nat
  dbFailing : Bool
  appRegistered : Bool

/-- `subscribe_to_messages`: create a fresh empty queue, append it to the
subscriber list, return it. -/
def subscribe_to_messages (st : IngestState) : Nat × IngestState :=
  (st.nextChan,
   { st with subs := st.subs ++ [st.nextChan], nextChan := st.nextChan + 1 })

/-- `list.remove(x)`: drop the first occurrence of `x`; used guarded by a
membership test, so an absent element is a no-op. -/
def removeFirst (x : Nat) : List Nat → List Nat
  | [] => []
  | y :: ys => if y = x then ys else y :: removeFirst x ys

/-- `unsubscribe(q)`: remove the first occurrence of `q` from the
subscriber list if present. -/
def unsubscribe (q : Nat) (st : IngestState) : IngestState :=
  { st with subs := removeFirst q st.subs }

/-- `q.put(message)` for the single queue `c`. -/
def pushTo (c : Nat) (m : Message) (qs : Nat → List Message) : Nat → List Message :=
  fun x => if x = c then qs x ++ [m] else qs x

/-- `_notify_subscribers(message)`: `q.put(message)` for every queue in the
subscriber list, in list order. -/
def _notify_subscribers (m : Message) (st : IngestState) : IngestState :=
  { st with queues := st.subs.foldl (fun qs c => pushTo c m qs) st.queues }

/-- The body of the `try` block of `_persist_event` (lines 95-103): look up
the catalog row for the payload, and if found commit one new `events` row.
A failing storage layer makes the transaction raise, modelled as `.error`. -/
def db_transaction (failing : Bool) (db : DBState) (payload : String)
    (floor : Option Int) (ts : Rat) : Except String DBState :=
  if failing then .error ("OperationalError: database unavailable")
  else
    match db.event_types.find? (fun r => r.2 = payload) with
    | none => .ok db
    | some row =>
      .ok { db with events := db.events ++ [⟨row.1, floor, ts⟩] }

/-- `_persist_event(message)`: skip when no Flask app is registered, when the
payload is empty or not in the catalog; otherwise parse the timestamp
(falling back to the column default `dbNow`), extract the floor, and run the
transaction; `except Exception` catches any storage failure, rolls back
(leaving the store unchanged) and returns normally. -/
def _persist_event (failing appRegistered : Bool) (msg : Message)
    (dbNow : Rat) (db : DBState) : DBState :=
  if ¬ appRegistered then db
  else if msg.payload = "" || ¬ EVENT_TYPES.contains msg.payload then db
  else
    let ts := msg.timestamp.getD dbNow
    let floor := _extract_floor msg.payload
    match db_transaction failing db msg.payload floor ts with
    | .ok db' => db'
    | .error _e => db

/-- `on_mqtt_message`: under the message lock, bump the id counter, build the
message dict (its timestamp is the current time, whose ISO form always
parses back), append to the ring buffer and trim; then persist and notify
subscribers.  `tnow` is the wall-clock instant of delivery. -/
def on_mqtt_message (topic payload : String) (tnow : Rat)
    (st : IngestState) : IngestState :=
  let counter := st.counter + 1
  let message : Message :=
    { id := counter, topic := topic, payload := payload, timestamp := some tnow }
  let buffer := bufferAppend st.maxMessages st.buffer message
  let db := _persist_event st.dbFailing st.appRegistered message tnow st.db
  _notify_subscribers message { st with counter := counter, buffer := buffer, db := db }

/-- `latest_messages()`: a snapshot of the ring buffer, most recent first. -/
def latest_messages (st : IngestState) : List Message :=
  st.buffer.reverse

/-- One inbound broker delivery: topic, payload and its wall-clock time. -/
structure MqttInput where
  topic : String
  payload : String
  now : Rat
  deriving DecidableEq, Repr

/-- Process a sequence of inbound deliveries in order. -/
def runMqtt (st : IngestState) (inputs : List MqttInput) : IngestState :=
  inputs.foldl (fun s i => on_mqtt_message i.topic i.payload i.now s) st

/-- The state at process start: counter 0, empty buffer, no subscribers,
all queues empty, seeded catalog, empty event log. -/
def initState (cap : Nat) (failing appRegistered : Bool) : IngestState :=
  { counter := 0
  , buffer := []
  , subs := []
  , queues := fun _ => []
  , nextChan := 0
  , db := { event_types := seededTypes, events := [] }
  , maxMessages := cap
  , dbFailing := failing
  , appRegistered := appRegistered }

/-- The message dicts built by `on_mqtt_message` for a run of deliveries,
ids continuing from counter value `c`. -/
def msgsFrom : Nat → List MqttInput → List Message
  | _, [] => []
  | c, i :: is =>
    { id := c + 1, topic := i.topic, payload := i.payload, timestamp := some i.now }
      :: msgsFrom (c + 1) is

/-! ## `src/mqtt_client.py`: outbound publish -/

/-- Default of `MQTT_COMMAND_TOPIC` in `src/config.py`. -/
def MQTT_COMMAND_TOPIC : String := "elevator/commands"

/-- The paho client handle, reduced to what `publish_message` consults.
Modelled from the spec: the underlying client's `publish` hands the message
to the broker and returns `MQTT_ERR_SUCCESS` exactly when a connection is
currently established (the paho library itself is outside the repository). -/
structure MqttClient where
  connected : Bool
  deriving DecidableEq, Repr

/-- `client.publish(...)`: the boolean is `rc == MQTT_ERR_SUCCESS`; the list
is what is handed to the broker by this call. -/
def client_publish (c : MqttClient) (topic payload : String) :
    Bool × List (String × String) :=
  if c.connected then (true, [(topic, payload)]) else (false, [])

/-- `publish_message(payload, topic)`: default the topic, fail when the
client does not exist yet, otherwise report the client's result.  The second
component is every message transmitted by the call: nothing is queued or
retried on failure. -/
def publish_message (client : Option MqttClient) (payload : String)
    (topic : Option String) : Bool × List (String × String) :=
  let t := topic.getD MQTT_COMMAND_TOPIC
  match client with
  | none => (false, [])
  | some c => client_publish c t payload

/-! ## `src/analytics.py`

Each query function takes the store and the optional inclusive
`start_date`/`end_date` filters.  The SQL `JOIN events ⋈ event_types` is the
lookup of the event's `event_type_id` in the `event_types` table; rows whose
foreign key has no matching catalog row are dropped by the inner join.
Grouped results are association lists with one entry per distinct key among
the matching rows (`GROUP BY`); dict insertion order is not part of any
claim, only the key/count associations are. -/

/-- The two optional timestamp filters, both inclusive. -/
def inRange (s e : Option Rat) (ev : Event) : Bool :=
  (match s with | none => true | some t => decide (t ≤ ev.timestamp)) &&
  (match e with | none => true | some t => decide (ev.timestamp ≤ t))

/-- `JOIN EventType` followed by `filter(EventType.event_type.in_(names))`. -/
def matchesAny (db : DBState) (names : List String) (ev : Event) : Bool :=
  match db.event_types.find? (fun r => r.1 = ev.event_type_id) with
  | some row => names.contains row.2
  | none => false

/-- `JOIN EventType` followed by `filter(EventType.event_type == name)`. -/
def matchesOne (db : DBState) (name : String) (ev : Event) : Bool :=
  matchesAny db [name] ev

/-- The rows a type-filtered, range-filtered query returns. -/
def queryRows (db : DBState) (names : List String) (s e : Option Rat) : List Event :=
  db.events.filter (fun ev => matchesAny db names ev && inRange s e ev)

/-- Names used by the trip queries. -/
def insideButtons : List String :=
  ["button_inside_0", "button_inside_1", "button_inside_2"]

/-- Names used by the floor-pass queries. -/
def floorReached : List String :=
  ["floor_reached_0", "floor_reached_1", "floor_reached_2"]

/-- Names of the hall call buttons. -/
def callButtons : List String :=
  ["call_button_0_up", "call_button_1_up", "call_button_1_down", "call_button_2_down"]

/-- `get_total_trips`: count of inside destination-button events in range. -/
def get_total_trips (db : DBState) (s e : Option Rat) : Nat :=
  (queryRows db insideButtons s e).length

/-- `get_total_floor_passes`: count of arrival events in range. -/
def get_total_floor_passes (db : DBState) (s e : Option Rat) : Nat :=
  (queryRows db floorReached s e).length

/-- `GROUP BY` a list of keys with their counts: one entry per distinct key
value occurring in the list. -/
def groupCounts (ks : List (Option Int)) : List (Option Int × Nat) :=
  ks.dedup.map (fun k => (k, ks.count k))

/-- `get_trips_by_floor`: inside-button events in range, grouped by the
`floor` column. -/
def get_trips_by_floor (db : DBState) (s e : Option Rat) : List (Option Int × Nat) :=
  groupCounts ((queryRows db insideButtons s e).map (·.floor))

/-- `get_floor_passes_by_floor`: arrival events in range, grouped by the
`floor` column. -/
def get_floor_passes_by_floor (db : DBState) (s e : Option Rat) : List (Option Int × Nat) :=
  groupCounts ((queryRows db floorReached s e).map (·.floor))

/-- `get_button_press_counts`: inside count, call count, and their sum. -/
def get_button_press_counts (db : DBState) (s e : Option Rat) : Nat × Nat × Nat :=
  let inside := (queryRows db insideButtons s e).length
  let call := (queryRows db callButtons s e).length
  (inside, call, inside + call)

/-- `get_most_requested_floor`: among button events with a non-null floor,
the floor with the greatest count (`ORDER BY count DESC` then `first()`;
ties between counts are broken arbitrarily by the store, modelled as first
occurrence), or `(None, 0)` when there are none. -/
def get_most_requested_floor (db : DBState) (s e : Option Rat) : Option Int × Nat :=
  let rows := (queryRows db (insideButtons ++ callButtons) s e).filter
    (fun ev => ev.floor.isSome)
  let grouped := groupCounts (rows.map (·.floor))
  match grouped with
  | [] => (none, 0)
  | g :: gs =>
    let best := gs.foldl (fun b x => if x.2 > b.2 then x else b) g
    (best.1, best.2)

/-- `get_emergency_stop_count`: count of activation events in range. -/
def get_emergency_stop_count (db : DBState) (s e : Option Rat) : Nat :=
  (queryRows db ["emergency_stop"] s e).length

/-- The activation timestamps of the query, in row order. -/
def stopsRaw (db : DBState) (s e : Option Rat) : List Rat :=
  (queryRows db ["emergency_stop"] s e).map (·.timestamp)

/-- The release timestamps of the query, in row order. -/
def releasesRaw (db : DBState) (s e : Option Rat) : List Rat :=
  (queryRows db ["emergency_released"] s e).map (·.timestamp)

/-- The activation timestamps in range, in chronological order
(`ORDER BY timestamp`). -/
def emergencyStops (db : DBState) (s e : Option Rat) : List Rat :=
  List.insertionSort (· ≤ ·) (stopsRaw db s e)

/-- The release timestamps in range, in chronological order. -/
def emergencyReleases (db : DBState) (s e : Option Rat) : List Rat :=
  List.insertionSort (· ≤ ·) (releasesRaw db s e)

/-- The inner pairing loop of `get_average_emergency_duration`: for each
stop, scan the release list in order and take the first release strictly
after it (`break`), recording the duration; stops with no later release
contribute nothing. -/
def pairedDurations (stops releases : List Rat) : List Rat :=
  stops.filterMap (fun t => (releases.find? (fun r => t < r)).map (fun r => r - t))

/-- The tail of `get_average_emergency_duration` after the two queries:
`None` when either list is empty, otherwise the mean of the paired
durations, `None` when no stop found a release. -/
def avgPair (stops releases : List Rat) : Option Rat :=
  if stops.isEmpty || releases.isEmpty then none
  else if (pairedDurations stops releases).isEmpty then none
  else some ((pairedDurations stops releases).sum
    / ((pairedDurations stops releases).length : Rat))

/-- `get_average_emergency_duration`: run both ordered queries and average
the activation-to-next-release durations. -/
def get_average_emergency_duration (db : DBState) (s e : Option Rat) : Option Rat :=
  avgPair (emergencyStops db s e) (emergencyReleases db s e)

/-- `func.extract('hour', timestamp)` over the seconds-since-midnight-epoch
time line: hour of day 0–23. -/
def hourOf (t : Rat) : Nat :=
  (Int.toNat ⌊t / 3600⌋) % 24

/-- `get_events_by_hour`: all events in range (no type filter), grouped by
hour of day, ordered by hour. -/
def get_events_by_hour (db : DBState) (s e : Option Rat) : List (Nat × Nat) :=
  let hs := ((db.events.filter (inRange s e)).map (fun ev => hourOf ev.timestamp))
  (List.insertionSort (· ≤ ·) hs.dedup).map (fun h => (h, hs.count h))

/-- `get_busiest_hour`: the histogram entry with the maximal count (Python
`max` keeps the first of equal keys), or `(None, 0)` on an empty
histogram. -/
def get_busiest_hour (db : DBState) (s e : Option Rat) : Option Nat × Nat :=
  match get_events_by_hour db s e with
  | [] => (none, 0)
  | x :: xs =>
    let b := xs.foldl (fun best y => if y.2 > best.2 then y else best) x
    (some b.1, b.2)

/-- `func.date(timestamp)`: day index of the timestamp on the seconds time
line. -/
def dateOf (t : Rat) : Int := ⌊t / 86400⌋

/-- `get_trips_per_day(days)`: inside-button events from `now - days` days
on, grouped by calendar date, chronologically; one entry per day with at
least one trip. -/
def get_trips_per_day (db : DBState) (now : Rat) (days : Nat) : List (Int × Nat) :=
  let startDate := now - (days : Rat) * 86400
  let rows := db.events.filter (fun ev =>
    matchesAny db insideButtons ev && decide (startDate ≤ ev.timestamp))
  let ds := rows.map (fun ev => dateOf ev.timestamp)
  (List.insertionSort (· ≤ ·) ds.dedup).map (fun d => (d, ds.count d))

/-- `round(x, 2)` with Python's round-half-to-even, on rationals. -/
def pyRound2 (x : Rat) : Rat :=
  let y := x * 100
  let f : Int := ⌊y⌋
  let r := y - (f : Rat)
  let n : Int :=
    if r < 1/2 then f
    else if 1/2 < r then f + 1
    else if f % 2 = 0 then f else f + 1
  (n : Rat) / 100

/-- `get_connection_stats`: link-established count, link-lost count, and the
established percentage rounded to two decimals, `0` when both counts are
zero. -/
def get_connection_stats (db : DBState) (s e : Option Rat) : Nat × Nat × Rat :=
  let conns := (queryRows db ["maxim_connected"] s e).length
  let disconns := (queryRows db ["maxim_connection_lost"] s e).length
  let total := conns + disconns
  let rate := if total > 0 then pyRound2 ((conns : Rat) / (total : Rat) * 100) else 0
  (conns, disconns, rate)

/-- `get_summary_stats`: the composite dashboard record. -/
structure SummaryStats where
  total_trips : Nat
  trips_by_floor : List (Option Int × Nat)
  buttons : Nat × Nat × Nat
  most_requested_floor : Option Int × Nat
  emergency_activations : Nat
  emergency_avg_duration : Option Rat
  busiest_hour : Option Nat × Nat
  events_by_hour : List (Nat × Nat)
  connection_health : Nat × Nat × Rat
  deriving DecidableEq, Repr

/-- `get_summary_stats(start_date, end_date)`. -/
def get_summary_stats (db : DBState) (s e : Option Rat) : SummaryStats :=
  { total_trips := get_total_trips db s e
  , trips_by_floor := get_trips_by_floor db s e
  , buttons := get_button_press_counts db s e
  , most_requested_floor := get_most_requested_floor db s e
  , emergency_activations := get_emergency_stop_count db s e
  , emergency_avg_duration := get_average_emergency_duration db s e
  , busiest_hour := get_busiest_hour db s e
  , events_by_hour := get_events_by_hour db s e
  , connection_health := get_connection_stats db s e }

/-- Modelled from the spec (§4.6, claim C4): each activation is paired with
the first chronologically later release — the head of the chronologically
ordered list of releases strictly after it, releases reusable across
activations.  Stated over the unsorted query rows so that "first
chronologically later" does not depend on any row order. -/
def specDurations (stops releases : List Rat) : List Rat :=
  stops.filterMap (fun t =>
    ((List.insertionSort (· ≤ ·) (releases.filter (fun r => t < r))).head?).map
      (fun r => r - t))

/-- Modelled from the spec (§4.6, claim C4): the mean of the
activation-to-first-later-release durations, null when either list is empty
or no pairing exists. -/
def avgSpecPair (stops releases : List Rat) : Option Rat :=
  if stops.isEmpty || releases.isEmpty then none
  else if (specDurations stops releases).isEmpty then none
  else some ((specDurations stops releases).sum
    / ((specDurations stops releases).length : Rat))

/-- Modelled from the spec: `average_emergency_duration` as the claim words
it, over the raw query rows. -/
def avgEmergencySpec (db : DBState) (s e : Option Rat) : Option Rat :=
  avgSpecPair (stopsRaw db s e) (releasesRaw db s e)

/-! ## Supporting lemmas -/

theorem isPyWs_eq_false_of_isDigit (c : Char) (h : c.isDigit = true) :
    isPyWs c = false := by
  by_contra hw
  rw [Bool.not_eq_false, isPyWs] at hw
  simp only [Bool.or_eq_true, decide_eq_true_eq] at hw
  rcases hw with ((((h1 | h1) | h1) | h1) | h1) | h1 <;> subst h1 <;>
    exact absurd h (by decide)

theorem dropWhile_isPyWs_of_digits (s : List Char)
    (h : ∀ c ∈ s, c.isDigit = true) : s.dropWhile isPyWs = s := by
  cases s with
  | nil => rfl
  | cons c cs =>
    have hc : isPyWs c = false :=
      isPyWs_eq_false_of_isDigit c (h c (List.mem_cons_self c cs))
    simp [List.dropWhile_cons, hc]

theorem pyStripWs_of_digits (s : List Char)
    (h : ∀ c ∈ s, c.isDigit = true) : pyStripWs s = s := by
  unfold pyStripWs
  rw [dropWhile_isPyWs_of_digits s h,
      dropWhile_isPyWs_of_digits s.reverse (fun c hc => h c (List.mem_reverse.mp hc)),
      List.reverse_reverse]

theorem digitsVal_isSome_of_digits (s : List Char) (hne : s ≠ [])
    (h : ∀ c ∈ s, c.isDigit = true) :
    digitsVal s = some (s.foldl (fun a c => 10 * a + (c.toNat - 48)) 0) := by
  unfold digitsVal
  rw [if_pos]
  exact ⟨hne, List.all_eq_true.mpr h⟩

theorem pyInt_all_digits (c : Char) (cs : List Char)
    (hd : ∀ x ∈ c :: cs, x.isDigit = true) :
    pyInt (c :: cs)
      = some (((c :: cs).foldl (fun a x => 10 * a + (x.toNat - 48)) 0 : Nat) : Int) := by
  have hc : c.isDigit = true := hd c (List.mem_cons_self c cs)
  have hminus : ¬ c = '-' := fun h => absurd hc (by subst h; decide)
  have hplus : ¬ c = '+' := fun h => absurd hc (by subst h; decide)
  unfold pyInt
  rw [pyStripWs_of_digits (c :: cs) hd]
  simp only [pyIntCore, if_neg hminus, if_neg hplus,
    digitsVal_isSome_of_digits (c :: cs) (by simp) hd, Option.map_some']
  rfl

/-! ## Claim C1 -/

/-- C1 (code-bug evidence): evaluated at the spec's examples, classification
is catalog membership and holds exactly as the spec says, but floor
extraction diverges on the arrival event: `floor_reached_1` is matched yet
its extracted floor is `none`, not `1`, because `_extract_floor`'s
arrival-family branch looks for the prefix `stopped_at_floor_`, which no
catalog name carries.  `call_button_1_down` and `unknown_noise` behave as
claimed. -/
theorem claim_C1_classify_examples :
    EVENT_TYPES.contains ("floor_reached_1") = true
      ∧ _extract_floor ("floor_reached_1") = none
      ∧ EVENT_TYPES.contains ("call_button_1_down") = true
      ∧ _extract_floor ("call_button_1_down") = some 1
      ∧ EVENT_TYPES.contains ("unknown_noise") = false
      ∧ (∀ p ∈ EVENT_TYPES, py_startswith ("stopped_at_floor_".toList) p.toList = false
          ∧ py_startswith ("cabin_button_".toList) p.toList = false) := by
  decide

/-! ## Claim C10 -/

/-- Python's `str.isdigit` character class: the decimal digits together with
the digit-property characters outside the decimal category, represented
here by the superscript digits (the full Unicode table has more such
characters; any of them behaves like these representatives: `isdigit`
accepts them and `int(...)` raises `ValueError` on them). -/
def pyIsdigitChar (c : Char) : Bool :=
  c.isDigit || c = '¹' || c = '²' || c = '³'

/-- Python `s.isdigit()` with the digit-class characters included; on
all-ASCII input it coincides with `pyIsdigit`. -/
def pyIsdigitU (s : List Char) : Bool :=
  !s.isEmpty && s.all pyIsdigitChar

/-- Outcome of a Python call that may raise: a returned value or an escaped
exception. -/
inductive PyResult where
  | ok (r : Option Int)
  | error (msg : String)
  deriving DecidableEq, Repr

/-- `_extract_floor` with Python's exception behaviour made explicit: the
first two branches guard `int(...)` with `try/except ValueError`, but the
call-button branch calls `int(parts[0])` unguarded after `isdigit` — when
the component consists of digit-class characters that are not decimal
digits, `isdigit` passes while `int(...)` raises, and the `ValueError`
escapes the function, modelled as `.error`. -/
def extractFloorRun (event_type : List Char) : PyResult :=
  if py_startswith ("stopped_at_floor_".toList) event_type then
    PyResult.ok (pyInt (lastComponent event_type))
  else if py_startswith ("cabin_button_".toList) event_type then
    PyResult.ok (pyInt (lastComponent event_type))
  else if py_startswith ("call_button_".toList) event_type then
    if pyIsdigitU (firstComponent (event_type.drop ("call_button_".toList).length)) then
      match pyInt (firstComponent (event_type.drop ("call_button_".toList).length)) with
      | some k => PyResult.ok (some k)
      | none => PyResult.error ("ValueError: invalid literal for int() with base 10")
    else PyResult.ok none
  else PyResult.ok none

/-- The call returned normally with a `None`-or-non-negative floor. -/
def okNonneg (x : PyResult) : Bool :=
  match x with
  | PyResult.ok r => r.all (fun k => decide (0 ≤ k))
  | PyResult.error _ => false

theorem pyIsdigitChar_ascii (c : Char) (h : c.toNat < 128) :
    pyIsdigitChar c = c.isDigit := by
  have h1 : ¬ c = '¹' := fun he => absurd h (by rw [he]; decide)
  have h2 : ¬ c = '²' := fun he => absurd h (by rw [he]; decide)
  have h3 : ¬ c = '³' := fun he => absurd h (by rw [he]; decide)
  unfold pyIsdigitChar
  rw [decide_eq_false h1, decide_eq_false h2, decide_eq_false h3]
  simp

theorem all_eq_all_of_mem {p q : Char → Bool} :
    ∀ s : List Char, (∀ c ∈ s, p c = q c) → s.all p = s.all q := by
  intro s
  induction s with
  | nil => intro _; rfl
  | cons c cs ih =>
    intro h
    rw [List.all_cons, List.all_cons, h c (List.mem_cons_self c cs),
      ih (fun x hx => h x (List.mem_cons_of_mem c hx))]

theorem pyIsdigitU_ascii (s : List Char) (h : ∀ c ∈ s, c.toNat < 128) :
    pyIsdigitU s = pyIsdigit s := by
  unfold pyIsdigitU pyIsdigit
  rw [all_eq_all_of_mem s (fun c hc => pyIsdigitChar_ascii c (h c hc))]

theorem mem_of_mem_firstComponent_drop (s : List Char) (n : Nat) (c : Char)
    (hc : c ∈ firstComponent (s.drop n)) : c ∈ s :=
  (List.drop_sublist _ _).subset ((List.takeWhile_sublist _).subset hc)

/-- On all-ASCII input the exception-aware extraction returns normally and
agrees with the total model used by the ingestion pipeline. -/
theorem extractFloorRun_ascii (s : List Char) (h : ∀ c ∈ s, c.toNat < 128) :
    extractFloorRun s = PyResult.ok (extractFloorL s) := by
  have hU : pyIsdigitU (firstComponent (s.drop ("call_button_".toList).length))
      = pyIsdigit (firstComponent (s.drop ("call_button_".toList).length)) :=
    pyIsdigitU_ascii _
      (fun c hc => h c (mem_of_mem_firstComponent_drop s _ c hc))
  unfold extractFloorRun extractFloorL
  by_cases h1 : py_startswith ("stopped_at_floor_".toList) s = true
  · rw [if_pos h1, if_pos h1]
  · rw [if_neg h1, if_neg h1]
    by_cases h2 : py_startswith ("cabin_button_".toList) s = true
    · rw [if_pos h2, if_pos h2]
    · rw [if_neg h2, if_neg h2]
      by_cases h3 : py_startswith ("call_button_".toList) s = true
      · rw [if_pos h3, if_pos h3]
        simp only [hU]
        by_cases hd : pyIsdigit
            (firstComponent (s.drop ("call_button_".toList).length)) = true
        · rw [if_pos hd, if_pos hd]
          unfold pyIsdigit at hd
          rw [Bool.and_eq_true] at hd
          cases hfc : firstComponent (s.drop ("call_button_".toList).length) with
          | nil => rw [hfc] at hd; simp at hd
          | cons c cs =>
            have hdall : ∀ x ∈ c :: cs, x.isDigit = true := by
              rw [← hfc]
              exact List.all_eq_true.mp hd.2
            rw [pyInt_all_digits c cs hdall]
        · rw [if_neg hd, if_neg hd]
      · rw [if_neg h3, if_neg h3]

/-- The `ValueError` escapes only when the input carries a digit-class
character that is not a decimal digit. -/
theorem extractFloorRun_error_has_nonDecimal (s : List Char) (e : String)
    (h : extractFloorRun s = PyResult.error e) :
    ∃ c ∈ s, pyIsdigitChar c = true ∧ c.isDigit = false := by
  unfold extractFloorRun at h
  by_cases h1 : py_startswith ("stopped_at_floor_".toList) s = true
  · rw [if_pos h1] at h
    simp at h
  · rw [if_neg h1] at h
    by_cases h2 : py_startswith ("cabin_button_".toList) s = true
    · rw [if_pos h2] at h
      simp at h
    · rw [if_neg h2] at h
      by_cases h3 : py_startswith ("call_button_".toList) s = true
      · rw [if_pos h3] at h
        by_cases h4 : pyIsdigitU
            (firstComponent (s.drop ("call_button_".toList).length)) = true
        · rw [if_pos h4] at h
          unfold pyIsdigitU at h4
          rw [Bool.and_eq_true] at h4
          by_cases hall : (firstComponent
              (s.drop ("call_button_".toList).length)).all Char.isDigit = true
          · cases hfc : firstComponent (s.drop ("call_button_".toList).length) with
            | nil => rw [hfc] at h4; simp at h4
            | cons c cs =>
              have hdall : ∀ x ∈ c :: cs, x.isDigit = true := by
                rw [← hfc]
                exact List.all_eq_true.mp hall
              rw [hfc, pyInt_all_digits c cs hdall] at h
              simp at h
          · rw [Bool.not_eq_true] at hall
            obtain ⟨c, hcmem, hcd⟩ := List.all_eq_false.mp hall
            rw [Bool.not_eq_true] at hcd
            exact ⟨c, mem_of_mem_firstComponent_drop s _ c hcmem,
              List.all_eq_true.mp h4.2 c hcmem, hcd⟩
        · rw [if_neg h4] at h
          simp at h
      · rw [if_neg h3] at h
        simp at h

/-- C10 (counterexample): both halves of the claim fail on the source.
Python's `isdigit` accepts the superscript two while `int` rejects it, and
the call-button branch does not guard the parse, so
`_extract_floor("call_button_²_up")` raises `ValueError` instead of
returning; and `_extract_floor("stopped_at_floor_-5")` returns `-5`, a
negative floor. -/
theorem claim_C10_counterexample :
    (¬ ∀ s : String, ∃ r : Option Int,
        extractFloorRun s.toList = PyResult.ok r
          ∧ (r = none ∨ ∃ n : Nat, r = some (n : Int)))
    ∧ extractFloorRun ("call_button_²_up".toList)
        = PyResult.error ("ValueError: invalid literal for int() with base 10")
    ∧ extractFloorRun ("stopped_at_floor_-5".toList) = PyResult.ok (some (-5)) := by
  refine ⟨?_, by decide, by decide⟩
  intro hall
  obtain ⟨r, hok, _⟩ := hall ("call_button_²_up")
  have he : extractFloorRun ("call_button_²_up".toList)
      = PyResult.error ("ValueError: invalid literal for int() with base 10") := by
    decide
  rw [he] at hok
  exact PyResult.noConfusion hok

/-- C10 (amended): for every input string the floor extraction either
returns `None` or an integer, or raises `ValueError`; the exception escapes
only from the unguarded call-button branch and only when the parsed
component carries a digit-class character that is not a decimal digit.  On
every all-ASCII input it returns normally (and agrees with the pipeline's
total model), and on every catalog payload it returns normally with a
`None`-or-non-negative floor; the returned integer can be negative for
non-catalog payloads whose trailing numeral carries a minus sign. -/
theorem claim_C10_extraction_exceptions :
    (∀ s : List Char, (∀ c ∈ s, c.toNat < 128) →
        extractFloorRun s = PyResult.ok (extractFloorL s))
    ∧ (∀ (s : List Char) (e : String), extractFloorRun s = PyResult.error e →
        ∃ c ∈ s, pyIsdigitChar c = true ∧ c.isDigit = false)
    ∧ (∀ p ∈ EVENT_TYPES, okNonneg (extractFloorRun p.toList) = true) :=
  ⟨extractFloorRun_ascii, extractFloorRun_error_has_nonDecimal, by decide⟩

/-- C10 amended, witnessed: a concrete ASCII payload extracts normally and
agrees with the total model; the error at the superscript payload exhibits
its non-decimal digit character; a catalog payload yields a non-negative
result. -/
theorem claim_C10_extraction_exceptions_witness :
    extractFloorRun ("call_button_1_down".toList)
      = PyResult.ok (extractFloorL ("call_button_1_down".toList))
    ∧ (∃ c ∈ ("call_button_²_up".toList), pyIsdigitChar c = true ∧ c.isDigit = false)
    ∧ okNonneg (extractFloorRun ("floor_reached_1".toList)) = true := by
  refine ⟨?_, ?_, ?_⟩
  · exact claim_C10_extraction_exceptions.1 ("call_button_1_down".toList) (by decide)
  · exact claim_C10_extraction_exceptions.2.1 ("call_button_²_up".toList)
      ("ValueError: invalid literal for int() with base 10") (by decide)
  · exact claim_C10_extraction_exceptions.2.2 ("floor_reached_1") (by decide)

/-! ## Claim C8 -/

/-- C8: the publish operation fails exactly when no broker connection is
currently established (no client yet, or a client that is not connected),
succeeds otherwise, and transmits the payload exactly on success — a failed
publish transmits nothing, and nothing is queued or retried. -/
theorem claim_C8_publish_failure_iff_no_connection :
    ∀ (client : Option MqttClient) (payload : String) (topic : Option String),
      ((publish_message client payload topic).1 = false
        ↔ ¬ ∃ c, client = some c ∧ c.connected = true)
      ∧ ((publish_message client payload topic).2
          = if (publish_message client payload topic).1
            then [(topic.getD MQTT_COMMAND_TOPIC, payload)] else []) := by
  intro client payload topic
  cases client with
  | none => simp [publish_message]
  | some c =>
    cases hc : c.connected <;>
      simp [publish_message, client_publish, hc]

/-! ## Ring-buffer lemmas (claims C2, C9, C3) -/

theorem take_append_take (n : Nat) (xs ys : List Message) :
    (xs ++ ys.take n).take n = (xs ++ ys).take n := by
  rw [List.take_append_eq_append_take, List.take_append_eq_append_take,
    List.take_take, Nat.min_eq_left (Nat.sub_le n xs.length)]

theorem bufferAppend_length_le (cap : Nat) (hcap : 1  ≤ cap)
    (buf : List Message) (m : Message) :
    (bufferAppend cap buf m).length ≤ cap := by
  unfold bufferAppend
  rw [if_neg (by omega)]
  rw [List.length_drop]
  omega

theorem bufferAppend_reverse (cap : Nat) (hcap : 1 ≤ cap)
    (buf : List Message) (m : Message) :
    (bufferAppend cap buf m).reverse = (m :: buf.reverse).take cap := by
  unfold bufferAppend
  rw [if_neg (by omega)]
  rw [List.reverse_drop]
  have h1 : (buf ++ [m]).reverse = m :: buf.reverse := by simp
  rw [h1]
  have h2 : (buf ++ [m]).length - ((buf ++ [m]).length - cap)
      = min cap (m :: buf.reverse).length := by
    simp [List.length_append]
    omega
  rw [h2, ← List.take_take, List.take_length]

theorem bufferFold_reverse (cap : Nat) (hcap : 1 ≤ cap) :
    ∀ (msgs : List Message) (buf : List Message), buf.length ≤ cap →
      ((msgs.foldl (bufferAppend cap) buf).reverse
        = (msgs.reverse ++ buf.reverse).take cap
        ∧ (msgs.foldl (bufferAppend cap) buf).length ≤ cap) := by
  intro msgs
  induction msgs with
  | nil =>
    intro buf hb
    simp only [List.foldl_nil, List.reverse_nil, List.nil_append]
    exact ⟨(List.take_of_length_le (by simpa using hb)).symm, hb⟩
  | cons m ms ih =>
    intro buf hb
    rw [List.foldl_cons]
    obtain ⟨ih1, ih2⟩ := ih (bufferAppend cap buf m)
      (bufferAppend_length_le cap hcap buf m)
    refine ⟨?_, ih2⟩
    rw [ih1, bufferAppend_reverse cap hcap buf m, take_append_take,
      List.reverse_cons, List.append_assoc, List.singleton_append]

/-- Projections of `_notify_subscribers`: only the queues change. -/
theorem notify_counter (m : Message) (st : IngestState) :
    (_notify_subscribers m st).counter = st.counter := rfl

theorem notify_buffer (m : Message) (st : IngestState) :
    (_notify_subscribers m st).buffer = st.buffer := rfl

theorem notify_maxMessages (m : Message) (st : IngestState) :
    (_notify_subscribers m st).maxMessages = st.maxMessages := rfl

theorem notify_db (m : Message) (st : IngestState) :
    (_notify_subscribers m st).db = st.db := rfl

theorem notify_subs (m : Message) (st : IngestState) :
    (_notify_subscribers m st).subs = st.subs := rfl

/-- Projections of one `on_mqtt_message` step. -/
theorem step_counter (topic payload : String) (tnow : Rat) (st : IngestState) :
    (on_mqtt_message topic payload tnow st).counter = st.counter + 1 := rfl

theorem step_buffer (topic payload : String) (tnow : Rat) (st : IngestState) :
    (on_mqtt_message topic payload tnow st).buffer
      = bufferAppend st.maxMessages st.buffer
          { id := st.counter + 1, topic := topic, payload := payload,
            timestamp := some tnow } := rfl

theorem step_maxMessages (topic payload : String) (tnow : Rat) (st : IngestState) :
    (on_mqtt_message topic payload tnow st).maxMessages = st.maxMessages := rfl

theorem runMqtt_buffer (inputs : List MqttInput) :
    ∀ (st : IngestState),
      (runMqtt st inputs).counter = st.counter + inputs.length
      ∧ (runMqtt st inputs).maxMessages = st.maxMessages
      ∧ (runMqtt st inputs).buffer
          = (msgsFrom st.counter inputs).foldl (bufferAppend st.maxMessages) st.buffer := by
  induction inputs with
  | nil => intro st; exact ⟨rfl, rfl, rfl⟩
  | cons i is ih =>
    intro st
    have hrun : runMqtt st (i :: is)
        = runMqtt (on_mqtt_message i.topic i.payload i.now st) is := rfl
    obtain ⟨ih1, ih2, ih3⟩ := ih (on_mqtt_message i.topic i.payload i.now st)
    refine ⟨?_, ?_, ?_⟩
    · rw [hrun, ih1, step_counter]
      simp [List.length_cons]
      omega
    · rw [hrun, ih2, step_maxMessages]
    · rw [hrun, ih3, step_maxMessages, step_counter, step_buffer]
      rfl

/-! ## Claim C2 -/

/-- C2 (counterexample): with configured capacity 0 the buffer is not
bounded by the capacity — `del buf[:-0]` is `del buf[:0]`, which deletes
nothing, so one delivery already leaves one buffered message. -/
theorem claim_C2_counterexample :
    ¬ ∀ (cap : Nat) (failing appReg : Bool) (inputs : List MqttInput),
        (latest_messages (runMqtt (initState cap failing appReg) inputs)).length ≤ cap
        ∧ latest_messages (runMqtt (initState cap failing appReg) inputs)
            = ((msgsFrom 0 inputs).reverse).take cap := by
  intro h
  have h0 := (h 0 false false [{ topic := "t", payload := "p", now := 0 }]).1
  exact absurd h0 (by decide)

/-- C2 (amended, capacity ≥ 1): for every configured capacity `N ≥ 1` and
every sequence of deliveries, the ring buffer holds at most `N` messages at
all times (every prefix of the delivery sequence is an instance of the
quantifier), and the snapshot is exactly the last `N` appended messages,
most recent first. -/
theorem claim_C2_ring_buffer (cap : Nat) (hcap : 1 ≤ cap)
    (failing appReg : Bool) (inputs : List MqttInput) :
    (latest_messages (runMqtt (initState cap failing appReg) inputs)).length ≤ cap
    ∧ latest_messages (runMqtt (initState cap failing appReg) inputs)
        = ((msgsFrom 0 inputs).reverse).take cap := by
  obtain ⟨_, hmax, hbuf⟩ := runMqtt_buffer inputs (initState cap failing appReg)
  have hinit_buf : (initState cap failing appReg).buffer = [] := rfl
  have hinit_cnt : (initState cap failing appReg).counter = 0 := rfl
  have hinit_max : (initState cap failing appReg).maxMessages = cap := rfl
  rw [hinit_buf, hinit_cnt, hinit_max] at hbuf
  obtain ⟨hrev, hlen⟩ := bufferFold_reverse cap hcap (msgsFrom 0 inputs) []
    (by simp)
  unfold latest_messages
  rw [hbuf]
  constructor
  · simpa using hlen
  · simpa using hrev

/-- C2 amended, witnessed: capacity 2, three deliveries — the buffer keeps
the most recent two, newest first. -/
theorem claim_C2_ring_buffer_witness :
    latest_messages (runMqtt (initState 2 false false)
        [ { topic := "t", payload := "a", now := 0 }
        , { topic := "t", payload := "b", now := 1 }
        , { topic := "t", payload := "c", now := 2 } ])
      = [ { id := 3, topic := "t", payload := "c", timestamp := some 2 }
        , { id := 2, topic := "t", payload := "b", timestamp := some 1 } ] := by
  have h := (claim_C2_ring_buffer 2 (by decide) false false
    [ { topic := "t", payload := "a", now := 0 }
    , { topic := "t", payload := "b", now := 1 }
    , { topic := "t", payload := "c", now := 2 } ]).2
  rw [h]
  decide

/-! ## Claim C9: sequence ids -/

/-- The invariant tying the ring buffer to the id counter: ids in the buffer
never exceed the counter, and in append order they are strictly
increasing. -/
def bufferIdsOk (counter : Nat) (buf : List Message) : Prop :=
  (∀ m ∈ buf, m.id ≤ counter) ∧ (buf.map Message.id).Pairwise (· < ·)

theorem bufferAppend_sublist (cap : Nat) (buf : List Message) (m : Message) :
    List.Sublist (bufferAppend cap buf m) (buf ++ [m]) := by
  unfold bufferAppend
  split
  · exact List.Sublist.refl _
  · exact List.drop_sublist _ _

theorem bufferIdsOk_step (cap counter : Nat) (buf : List Message) (m : Message)
    (hm : m.id = counter + 1) (h : bufferIdsOk counter buf) :
    bufferIdsOk (counter + 1) (bufferAppend cap buf m) := by
  obtain ⟨h1, h2⟩ := h
  have hsub := bufferAppend_sublist cap buf m
  constructor
  · intro x hx
    rcases List.mem_append.mp (hsub.subset hx) with hx1 | hx1
    · exact Nat.le_trans (h1 x hx1) (Nat.le_succ _)
    · rw [List.mem_singleton.mp hx1, hm]
  · have hall : ((buf ++ [m]).map Message.id).Pairwise (· < ·) := by
      rw [List.map_append, List.pairwise_append]
      refine ⟨h2, by simp, ?_⟩
      intro a ha b hb
      simp only [List.map_cons, List.map_nil, List.mem_singleton] at hb
      subst hb
      obtain ⟨x, hx, hxa⟩ := List.mem_map.mp ha
      rw [hm, ← hxa]
      exact Nat.lt_succ_of_le (h1 x hx)
    exact hall.sublist (hsub.map Message.id)

theorem bufferIdsOk_fold (cap : Nat) :
    ∀ (inputs : List MqttInput) (counter : Nat) (buf : List Message),
      bufferIdsOk counter buf →
      bufferIdsOk (counter + inputs.length)
        ((msgsFrom counter inputs).foldl (bufferAppend cap) buf) := by
  intro inputs
  induction inputs with
  | nil => intro c b h; simpa [msgsFrom] using h
  | cons i is ih =>
    intro c b h
    have hstep := bufferIdsOk_step cap c b
      { id := c + 1, topic := i.topic, payload := i.payload, timestamp := some i.now }
      rfl h
    have hrest := ih (c + 1) _ hstep
    have harith : c + 1 + is.length = c + (i :: is).length := by
      simp [List.length_cons]; omega
    rw [harith] at hrest
    exact hrest

/-- C9: over every run of the ingestion loop from process start, the id
counter equals the number of processed deliveries (so the id assigned to the
k-th message is k, strictly greater than every previously assigned id, and
never reused), every id in the buffer is bounded by the counter — counter
bump and append happen in the same atomic step — and every snapshot lists
strictly decreasing ids, most recent first.  Instantiating `inputs` at each
prefix of a delivery sequence gives the property at all intermediate
times. -/
theorem claim_C9_sequence_ids (cap : Nat) (failing appReg : Bool)
    (inputs : List MqttInput) :
    (runMqtt (initState cap failing appReg) inputs).counter = inputs.length
    ∧ (∀ m ∈ (runMqtt (initState cap failing appReg) inputs).buffer,
        m.id ≤ (runMqtt (initState cap failing appReg) inputs).counter)
    ∧ ((latest_messages (runMqtt (initState cap failing appReg) inputs)).map
        Message.id).Pairwise (· > ·) := by
  obtain ⟨hcnt, hmax, hbuf⟩ := runMqtt_buffer inputs (initState cap failing appReg)
  have hinit : bufferIdsOk 0 ([] : List Message) := ⟨by simp, by simp⟩
  have hinv := bufferIdsOk_fold cap inputs 0 [] hinit
  rw [Nat.zero_add] at hinv
  have hbuf' : (runMqtt (initState cap failing appReg) inputs).buffer
      = (msgsFrom 0 inputs).foldl (bufferAppend cap) [] := hbuf
  have hcnt' : (runMqtt (initState cap failing appReg) inputs).counter
      = inputs.length := by rw [hcnt]; simp [initState]
  refine ⟨hcnt', ?_, ?_⟩
  · intro m hm
    rw [hcnt']
    exact hinv.1 m (by rw [← hbuf']; exact hm)
  · unfold latest_messages
    rw [hbuf', List.map_reverse, List.pairwise_reverse]
    exact hinv.2

/-! ## Fan-out hub lemmas (claims C6, C3) -/

theorem foldl_pushTo_queues (m : Message) :
    ∀ (subs : List Nat) (qs : Nat → List Message) (c : Nat),
      (subs.foldl (fun q x => pushTo x m q) qs) c
        = qs c ++ List.replicate (subs.count c) m := by
  intro subs
  induction subs with
  | nil => intro qs c; simp
  | cons s ss ih =>
    intro qs c
    rw [List.foldl_cons, ih]
    unfold pushTo
    by_cases h : c = s
    · subst h
      rw [if_pos rfl, List.count_cons, if_pos (by simp), List.append_assoc]
      have : [m] ++ List.replicate (ss.count c) m
          = List.replicate (ss.count c + 1) m := by
        rw [List.singleton_append, ← List.replicate_succ]
      rw [this]
    · rw [if_neg h, List.count_cons, if_neg (by simpa using fun he => h he.symm),
        Nat.add_zero]

/-- The queue contents after one full ingestion step, for every channel. -/
theorem step_queues (topic payload : String) (tnow : Rat) (st : IngestState) (c : Nat) :
    (on_mqtt_message topic payload tnow st).queues c
      = st.queues c ++ List.replicate (st.subs.count c)
          ({ id := st.counter + 1, topic := topic, payload := payload,
             timestamp := some tnow } : Message) :=
  foldl_pushTo_queues _ st.subs st.queues c

theorem removeFirst_append_self (x : Nat) :
    ∀ (l : List Nat), x ∉ l → removeFirst x (l ++ [x]) = l := by
  intro l
  induction l with
  | nil => intro _; simp [removeFirst]
  | cons y ys ih =>
    intro hx
    have hyx : ¬ y = x := by
      intro h
      subst h
      exact hx (List.mem_cons_self y ys)
    rw [List.cons_append]
    unfold removeFirst
    rw [if_neg hyx, ih (fun h => hx (List.mem_cons_of_mem y h))]

/-- Well-formedness of the hub state: the subscriber list has no duplicate
queue objects (each `subscribe_to_messages` creates a fresh one), every
registered queue was created earlier, and queues not yet created are
empty. -/
def HubWF (st : IngestState) : Prop :=
  st.subs.Nodup ∧ (∀ c ∈ st.subs, c < st.nextChan)
    ∧ ∀ c, st.nextChan ≤ c → st.queues c = []

/-! ## Claim C6 -/

/-- C6: broadcasting to a well-formed hub with `K` registered channels
delivers the message to exactly those `K` channels, each exactly once
(each registered channel's queue is extended by exactly `[m]`, every other
queue is untouched); and a channel that is registered and then unregistered
is no longer in the subscriber set and receives nothing from a subsequent
broadcast. -/
theorem claim_C6_fanout_delivery (st : IngestState) (m : Message)
    (hwf : HubWF st) :
    (∀ c ∈ st.subs, (_notify_subscribers m st).queues c = st.queues c ++ [m])
    ∧ (∀ c, c ∉ st.subs → (_notify_subscribers m st).queues c = st.queues c)
    ∧ ((subscribe_to_messages st).1
        ∉ (unsubscribe (subscribe_to_messages st).1 (subscribe_to_messages st).2).subs
      ∧ (_notify_subscribers m
          (unsubscribe (subscribe_to_messages st).1
            (subscribe_to_messages st).2)).queues (subscribe_to_messages st).1 = []) := by
  obtain ⟨hnd, hlt, hfresh⟩ := hwf
  have hq : ∀ c, (_notify_subscribers m st).queues c
      = st.queues c ++ List.replicate (st.subs.count c) m :=
    fun c => foldl_pushTo_queues m st.subs st.queues c
  have hnotmem : st.nextChan ∉ st.subs :=
    fun hmem => absurd (hlt st.nextChan hmem) (Nat.lt_irrefl _)
  refine ⟨?_, ?_, ?_, ?_⟩
  · intro c hc
    rw [hq c, List.count_eq_one_of_mem hnd hc]
    rfl
  · intro c hc
    rw [hq c, List.count_eq_zero.mpr hc, List.replicate_zero, List.append_nil]
  · show st.nextChan ∉ removeFirst st.nextChan (st.subs ++ [st.nextChan])
    rw [removeFirst_append_self st.nextChan st.subs hnotmem]
    exact hnotmem
  · have hcnt0 : (removeFirst st.nextChan (st.subs ++ [st.nextChan])).count st.nextChan
        = 0 := by
      rw [removeFirst_append_self st.nextChan st.subs hnotmem]
      exact List.count_eq_zero.mpr hnotmem
    have hq2 : (_notify_subscribers m
        (unsubscribe (subscribe_to_messages st).1
          (subscribe_to_messages st).2)).queues (subscribe_to_messages st).1
        = st.queues st.nextChan
          ++ List.replicate
              ((removeFirst st.nextChan (st.subs ++ [st.nextChan])).count st.nextChan) m :=
      foldl_pushTo_queues m
        (removeFirst st.nextChan (st.subs ++ [st.nextChan])) st.queues st.nextChan
    rw [hq2, hcnt0, hfresh st.nextChan (Nat.le_refl _), List.replicate_zero,
      List.append_nil]

/-- A concrete hub state: two subscribed channels on a fresh process. -/
def hubSt : IngestState :=
  (subscribe_to_messages (subscribe_to_messages (initState 5 false false)).2).2

/-- A concrete broadcast message. -/
def mW : Message :=
  { id := 9, topic := "elevator/events", payload := "x", timestamp := none }

/-- C6, witnessed on the concrete two-channel hub: both registered channels
receive the broadcast exactly once, an unregistered channel receives
nothing, and a channel registered then unregistered receives nothing. -/
theorem claim_C6_fanout_delivery_witness :
    (_notify_subscribers mW hubSt).queues 0 = [mW]
    ∧ (_notify_subscribers mW hubSt).queues 7 = hubSt.queues 7
    ∧ (_notify_subscribers mW
        (unsubscribe (subscribe_to_messages hubSt).1
          (subscribe_to_messages hubSt).2)).queues (subscribe_to_messages hubSt).1 = [] := by
  have hwf : HubWF hubSt :=
    ⟨by decide, by decide, fun c _ => rfl⟩
  have h := claim_C6_fanout_delivery hubSt mW hwf
  refine ⟨?_, h.2.1 7 (by decide), h.2.2.2⟩
  have h0 := h.1 0 (by decide)
  rw [h0]
  rfl

/-! ## Claim C3 -/

theorem persist_event_failing (appReg : Bool) (msg : Message) (dbNow : Rat)
    (db : DBState) : _persist_event true appReg msg dbNow db = db := by
  unfold _persist_event
  split
  · rfl
  · split
    · rfl
    · rfl

theorem self_mem_bufferAppend (cap : Nat) (buf : List Message) (m : Message) :
    m ∈ bufferAppend cap buf m := by
  unfold bufferAppend
  by_cases h : cap = 0
  · rw [if_pos h]
    exact List.mem_append_right _ (List.mem_singleton_self m)
  · rw [if_neg h,
      List.drop_append_of_le_length (by simp [List.length_append]; omega)]
    exact List.mem_append_right _ (List.mem_singleton_self m)

/-- C3: when the storage layer fails, the failure is absorbed inside the
persist step (every branch of the embedded `_persist_event` returns
normally, mirroring the source's `except Exception` handler), the
transaction is rolled back (the store is unchanged), and the very same
message is still appended to the ring buffer and still delivered exactly
once to every registered subscriber queue. -/
theorem claim_C3_persist_failure_isolated (st : IngestState)
    (topic payload : String) (tnow : Rat) (hfail : st.dbFailing = true) :
    (on_mqtt_message topic payload tnow st).db = st.db
    ∧ ({ id := st.counter + 1, topic := topic, payload := payload,
          timestamp := some tnow } : Message)
        ∈ (on_mqtt_message topic payload tnow st).buffer
    ∧ (∀ c ∈ st.subs,
        (on_mqtt_message topic payload tnow st).queues c
          = st.queues c ++ List.replicate (st.subs.count c)
              ({ id := st.counter + 1, topic := topic, payload := payload,
                 timestamp := some tnow } : Message)
        ∧ ({ id := st.counter + 1, topic := topic, payload := payload,
              timestamp := some tnow } : Message)
            ∈ (on_mqtt_message topic payload tnow st).queues c)
    ∧ (∀ c, c ∉ st.subs →
        (on_mqtt_message topic payload tnow st).queues c = st.queues c) := by
  have hdb : (on_mqtt_message topic payload tnow st).db
      = _persist_event st.dbFailing st.appRegistered
          { id := st.counter + 1, topic := topic, payload := payload,
            timestamp := some tnow } tnow st.db := rfl
  refine ⟨?_, ?_, ?_, ?_⟩
  · rw [hdb, hfail, persist_event_failing]
  · rw [step_buffer]
    exact self_mem_bufferAppend _ _ _
  · intro c hc
    constructor
    · exact step_queues topic payload tnow st c
    · rw [step_queues topic payload tnow st c]
      refine List.mem_append_right _ (List.mem_replicate.mpr ⟨?_, rfl⟩)
      have := List.count_pos_iff.mpr hc
      omega
  · intro c hc
    rw [step_queues topic payload tnow st c, List.count_eq_zero.mpr hc,
      List.replicate_zero, List.append_nil]

/-- A concrete failing-store state with one subscriber. -/
def c3State : IngestState :=
  (subscribe_to_messages (initState 2 true true)).2

/-- C3, witnessed: on the failing-store state, ingesting an
`emergency_stop` payload leaves the event log untouched while the message
reaches the ring buffer and the lone subscriber queue. -/
theorem claim_C3_persist_failure_isolated_witness :
    (on_mqtt_message ("elevator/events") ("emergency_stop") 0 c3State).db = c3State.db
    ∧ ({ id := 1, topic := "elevator/events", payload := "emergency_stop",
          timestamp := some 0 } : Message)
        ∈ (on_mqtt_message ("elevator/events") ("emergency_stop") 0 c3State).buffer
    ∧ (on_mqtt_message ("elevator/events") ("emergency_stop") 0 c3State).queues 0
        = [ { id := 1, topic := "elevator/events", payload := "emergency_stop",
              timestamp := some 0 } ] := by
  have h := claim_C3_persist_failure_isolated c3State
    ("elevator/events") ("emergency_stop") 0 rfl
  refine ⟨h.1, h.2.1, ?_⟩
  have hq := (h.2.2.1 0 (by decide)).1
  rw [hq]
  rfl

/-! ## Claim C7 -/

theorem queryRows_eq_nil_of_no_match (db : DBState) (names : List String)
    (s e : Option Rat) (h : ∀ ev ∈ db.events, inRange s e ev = false) :
    queryRows db names s e = [] := by
  rw [queryRows, List.filter_eq_nil_iff]
  intro ev hev
  rw [h ev hev]
  simp

/-- C7: every analytics query over a log with no rows in the requested range
resolves to a zero count, an empty mapping or a null value, never an error
(each embedded query is a total function evaluated below); in particular
`busiest_hour` reports a null hour with count 0, not a default hour 0; and
`trips_per_day` over an empty log is empty. -/
theorem claim_C7_empty_results (db : DBState) (s e : Option Rat)
    (h : ∀ ev ∈ db.events, inRange s e ev = false) :
    get_total_trips db s e = 0
    ∧ get_total_floor_passes db s e = 0
    ∧ get_trips_by_floor db s e = []
    ∧ get_floor_passes_by_floor db s e = []
    ∧ get_button_press_counts db s e = (0, 0, 0)
    ∧ get_most_requested_floor db s e = (none, 0)
    ∧ get_emergency_stop_count db s e = 0
    ∧ get_average_emergency_duration db s e = none
    ∧ get_events_by_hour db s e = []
    ∧ get_busiest_hour db s e = (none, 0)
    ∧ get_connection_stats db s e = (0, 0, 0)
    ∧ (∀ now days, db.events = [] → get_trips_per_day db now days = []) := by
  have hq := fun names => queryRows_eq_nil_of_no_match db names s e h
  have hhour : get_events_by_hour db s e = [] := by
    unfold get_events_by_hour
    rw [List.filter_eq_nil_iff.mpr (fun ev hev => by rw [h ev hev]; simp)]
    rfl
  refine ⟨?_, ?_, ?_, ?_, ?_, ?_, ?_, ?_, hhour, ?_, ?_, ?_⟩
  · rw [get_total_trips, hq insideButtons]
    rfl
  · rw [get_total_floor_passes, hq floorReached]
    rfl
  · rw [get_trips_by_floor, hq insideButtons]
    rfl
  · rw [get_floor_passes_by_floor, hq floorReached]
    rfl
  · rw [get_button_press_counts, hq insideButtons, hq callButtons]
    rfl
  · rw [get_most_requested_floor, hq (insideButtons ++ callButtons)]
    rfl
  · rw [get_emergency_stop_count, hq (["emergency_stop"])]
    rfl
  · rw [get_average_emergency_duration, emergencyStops, emergencyReleases,
      stopsRaw, releasesRaw, hq (["emergency_stop"]), hq (["emergency_released"])]
    rfl
  · rw [get_busiest_hour, hhour]
  · rw [get_connection_stats, hq (["maxim_connected"]),
      hq (["maxim_connection_lost"])]
    rfl
  · intro now days hempty
    rw [get_trips_per_day, hempty]
    rfl

/-- A log whose only event lies outside the queried range. -/
def c7Db : DBState :=
  { event_types := seededTypes, events := [{ event_type_id := 11, floor := none, timestamp := 100 }] }

/-- C7, witnessed: querying `c7Db` up to time 0 matches nothing, and every
query returns its zero/empty/null result. -/
theorem claim_C7_empty_results_witness :
    get_busiest_hour c7Db none (some 0) = (none, 0)
    ∧ get_total_trips c7Db none (some 0) = 0
    ∧ get_average_emergency_duration c7Db none (some 0) = none := by
  have h := claim_C7_empty_results c7Db none (some 0) (by decide)
  exact ⟨h.2.2.2.2.2.2.2.2.2.1, h.1, h.2.2.2.2.2.2.2.1⟩

/-! ## Claim C5 -/

/-- A raw inbound message carrying an in-cabin destination-button payload. -/
def c5Msg (p : String) (t : Rat) : Message :=
  { id := 0, topic := "elevator/events", payload := p, timestamp := some t }

/-- The log produced by ingesting the in-cabin payloads
`button_inside_0`, `button_inside_0`, `button_inside_2` (the repository's
names for the spec's `inside_floor_*` events) through `_persist_event` on a
healthy store. -/
def c5Db : DBState :=
  _persist_event false true (c5Msg ("button_inside_2") 2) 2
    (_persist_event false true (c5Msg ("button_inside_0") 1) 1
      (_persist_event false true (c5Msg ("button_inside_0") 0) 0
        { event_types := seededTypes, events := [] }))

/-- The log the claim expects those three events to produce: the same three
rows but carrying floors 0, 0 and 2 (ids 4 and 6 are the catalog rows of
`button_inside_0` and `button_inside_2`). -/
def c5IntendedDb : DBState :=
  { event_types := seededTypes
  , events :=
      [ { event_type_id := 4, floor := some 0, timestamp := 0 }
      , { event_type_id := 4, floor := some 0, timestamp := 1 }
      , { event_type_id := 6, floor := some 2, timestamp := 2 } ] }

/-- C5 (code-bug evidence): after ingesting the three in-cabin events the
persisted rows all carry floor `None` (because `_extract_floor` has no
branch for the `button_inside_` prefix), so `trips_by_floor` returns the
single group `{None: 3}` — not `{0: 2, 2: 1}` as the claim states.  Had the
rows carried their floors, the same query would return exactly the claimed
grouping, with no entry for floor 1. -/
theorem claim_C5_trips_by_floor_groups :
    (∀ ev ∈ c5Db.events, ev.floor = none)
    ∧ get_trips_by_floor c5Db none none = [(none, 3)]
    ∧ get_trips_by_floor c5IntendedDb none none = [(some 0, 2), (some 2, 1)] := by
  decide

/-! ## Claim C4 -/

theorem find?_eq_head?_filter (p : Rat → Bool) :
    ∀ l : List Rat, l.find? p = (l.filter p).head? := by
  intro l
  induction l with
  | nil => rfl
  | cons x xs ih =>
    by_cases h : p x = true
    · rw [List.find?_cons_of_pos _ h, List.filter_cons_of_pos h]
      rfl
    · rw [List.find?_cons_of_neg _ h, List.filter_cons_of_neg h, ih]

theorem sortedFilter_eq (p : Rat → Bool) (rs : List Rat) :
    (List.insertionSort (· ≤ ·) rs).filter p
      = List.insertionSort (· ≤ ·) (rs.filter p) :=
  List.eq_of_perm_of_sorted
    (((List.perm_insertionSort _ rs).filter p).trans
      (List.perm_insertionSort _ (rs.filter p)).symm)
    ((List.sorted_insertionSort _ rs).filter p)
    (List.sorted_insertionSort _ _)

theorem perm_isEmpty (l1 l2 : List Rat) (h : List.Perm l1 l2) :
    l1.isEmpty = l2.isEmpty := by
  have hl := h.length_eq
  cases l1 <;> cases l2 <;> simp_all [List.isEmpty]

/-- The pairing over the chronologically ordered lists computes the same
durations (up to order, hence the same mean) as the spec's
order-independent description over the raw rows. -/
theorem pairedDurations_perm_specDurations (l1 l2 : List Rat) :
    List.Perm
      (pairedDurations (List.insertionSort (· ≤ ·) l1) (List.insertionSort (· ≤ ·) l2))
      (specDurations l1 l2) := by
  unfold pairedDurations specDurations
  have hf : (fun t => ((List.insertionSort (· ≤ ·) l2).find?
        (fun r => t < r)).map (fun r => r - t))
      = (fun t => ((List.insertionSort (· ≤ ·)
          (l2.filter (fun r => t < r))).head?).map (fun r => r - t)) := by
    funext t
    rw [find?_eq_head?_filter, sortedFilter_eq]
  rw [hf]
  exact (List.perm_insertionSort _ l1).filterMap _

theorem avgPair_sort_eq (l1 l2 : List Rat) :
    avgPair (List.insertionSort (· ≤ ·) l1) (List.insertionSort (· ≤ ·) l2)
      = avgSpecPair l1 l2 := by
  have hd := pairedDurations_perm_specDurations l1 l2
  unfold avgPair avgSpecPair
  rw [perm_isEmpty _ _ (List.perm_insertionSort (· ≤ ·) l1),
    perm_isEmpty _ _ (List.perm_insertionSort (· ≤ ·) l2),
    perm_isEmpty _ _ hd, hd.sum_eq, hd.length_eq]

/-- The spec's emergency-duration example: activations at `t1`, `t2` and
releases at `t1+5`, `t2+10` (catalog ids 11 and 12 are `emergency_stop` and
`emergency_released`). -/
def emergencyExampleDb (t1 t2 : Rat) : DBState :=
  { event_types := seededTypes
  , events :=
      [ { event_type_id := 11, floor := none, timestamp := t1 }
      , { event_type_id := 11, floor := none, timestamp := t2 }
      , { event_type_id := 12, floor := none, timestamp := t1 + 5 }
      , { event_type_id := 12, floor := none, timestamp := t2 + 10 } ] }

/-- C4: `average_emergency_duration` equals the spec's order-independent
description — each activation paired with the first chronologically later
release, releases reusable; in particular two activations with releases 5
and 10 seconds after them (episodes in order) average to 7.5 seconds; and
the result is null when either event list is empty or when no activation
has any strictly later release. -/
theorem claim_C4_average_emergency_duration :
    (∀ (db : DBState) (s e : Option Rat),
      get_average_emergency_duration db s e = avgEmergencySpec db s e)
    ∧ (∀ t1 t2 : Rat, t1 + 5 < t2 →
        get_average_emergency_duration (emergencyExampleDb t1 t2) none none
          = some (15 / 2))
    ∧ (∀ (db : DBState) (s e : Option Rat),
        queryRows db (["emergency_stop"]) s e = []
          ∨ queryRows db (["emergency_released"]) s e = [] →
        get_average_emergency_duration db s e = none)
    ∧ (∀ (db : DBState) (s e : Option Rat),
        (∀ t ∈ stopsRaw db s e, ∀ r ∈ releasesRaw db s e, r ≤ t) →
        get_average_emergency_duration db s e = none) := by
  refine ⟨?_, ?_, ?_, ?_⟩
  · intro db s e
    exact avgPair_sort_eq (stopsRaw db s e) (releasesRaw db s e)
  · intro t1 t2 h
    have h12 : t1 ≤ t2 := by linarith
    have hr12 : t1 + 5 ≤ t2 + 10 := by linarith
    show avgPair (List.insertionSort (· ≤ ·) [t1, t2])
        (List.insertionSort (· ≤ ·) [t1 + 5, t2 + 10]) = some (15 / 2)
    have hsort1 : List.insertionSort (· ≤ ·) [t1, t2] = [t1, t2] := by
      simp [List.insertionSort, List.orderedInsert, h12]
    have hsort2 : List.insertionSort (· ≤ ·) [t1 + 5, t2 + 10]
        = [t1 + 5, t2 + 10] := by
      simp [List.insertionSort, List.orderedInsert, hr12]
    rw [hsort1, hsort2]
    have hfind1 : List.find? (fun r => decide (t1 < r)) [t1 + 5, t2 + 10]
        = some (t1 + 5) :=
      List.find?_cons_of_pos _ (decide_eq_true (by linarith))
    have hfind2 : List.find? (fun r => decide (t2 < r)) [t1 + 5, t2 + 10]
        = some (t2 + 10) := by
      rw [List.find?_cons_of_neg _
          (by simp only [decide_eq_true_eq]; exact not_lt.mpr (by linarith))]
      exact List.find?_cons_of_pos _ (decide_eq_true (by linarith))
    have hpd : pairedDurations [t1, t2] [t1 + 5, t2 + 10]
        = [t1 + 5 - t1, t2 + 10 - t2] := by
      simp only [pairedDurations, List.filterMap_cons, hfind1, hfind2,
        Option.map_some', List.filterMap_nil]
    unfold avgPair
    rw [if_neg (by simp), hpd, if_neg (by simp)]
    have hval : (t1 + 5 - t1 + (t2 + 10 - t2 + 0))
        / (([t1 + 5 - t1, t2 + 10 - t2].length : Nat) : Rat) = 15 / 2 := by
      norm_num
    rw [List.sum_cons, List.sum_cons, List.sum_nil, hval]
  · intro db s e hcase
    show avgPair (List.insertionSort (· ≤ ·) (stopsRaw db s e))
        (List.insertionSort (· ≤ ·) (releasesRaw db s e)) = none
    rcases hcase with hst | hrel
    · have hnil : stopsRaw db s e = [] := by rw [stopsRaw, hst]; rfl
      rw [hnil]
      unfold avgPair
      rw [if_pos (by simp [List.insertionSort])]
    · have hnil : releasesRaw db s e = [] := by rw [releasesRaw, hrel]; rfl
      rw [hnil]
      unfold avgPair
      rw [if_pos (by simp [List.insertionSort])]
  · intro db s e hnp
    show avgPair (List.insertionSort (· ≤ ·) (stopsRaw db s e))
        (List.insertionSort (· ≤ ·) (releasesRaw db s e)) = none
    unfold avgPair
    by_cases hc : ((List.insertionSort (· ≤ ·) (stopsRaw db s e)).isEmpty
        || (List.insertionSort (· ≤ ·) (releasesRaw db s e)).isEmpty) = true
    · rw [if_pos hc]
    · have hdur : pairedDurations (List.insertionSort (· ≤ ·) (stopsRaw db s e))
          (List.insertionSort (· ≤ ·) (releasesRaw db s e)) = [] := by
        unfold pairedDurations
        rw [List.filterMap_eq_nil_iff]
        intro t ht
        rw [Option.map_eq_none', List.find?_eq_none]
        intro r hr
        simp only [decide_eq_true_eq]
        exact not_lt.mpr (hnp t
          ((List.perm_insertionSort _ (stopsRaw db s e)).mem_iff.mp ht) r
          ((List.perm_insertionSort _ (releasesRaw db s e)).mem_iff.mp hr))
      rw [if_neg hc, hdur]
      rfl

/-- C4, witnessed at `t1 = 0`, `t2 = 100`: durations 5 and 10 average to
7.5 seconds, and a log with no release events gives a null average. -/
theorem claim_C4_average_emergency_duration_witness :
    get_average_emergency_duration (emergencyExampleDb 0 100) none none
      = some (15 / 2)
    ∧ get_average_emergency_duration c7Db none (some 0) = none := by
  constructor
  · exact claim_C4_average_emergency_duration.2.1 0 100 (by norm_num)
  · exact claim_C4_average_emergency_duration.2.2.1 c7Db none (some 0)
      (Or.inl (by decide))

end AggregatorBackend
